import Mathlib

/-!
Verification development for the NYC-311 ingestion pipeline
(`src/etl.py`, `src/db.py`): a shallow embedding of the date normalizer,
the Python `int`/`float` coercions, the dimension resolver, the
idempotent upsert into the fact table, the tenacity-style retry wrapper
around the fetch client, and the paging loop of the orchestrator, with
theorems settling the specified properties.
-/

namespace Etl

/-! ## Python string coercion helpers -/

/-- Characters stripped by Python's `int(str)` / `float(str)` conversions. -/
def isPySpace (c : Char) : Bool :=
  c = ' ' || c = '\t' || c = '\n' || c = '\r' || c = Char.ofNat 11 || c = Char.ofNat 12

/-- Numeric value of a decimal digit character. -/
def digVal (c : Char) : Nat := c.toNat - 48

/-- Consume the rest of a Python `digitpart` (after a leading digit):
digits with single underscores allowed only between digits.
Returns the accumulated value, or `none` on a malformed tail. -/
def goDigits : Nat → List Char → Option Nat
  | acc, [] => some acc
  | acc, c :: cs =>
    if c.isDigit then goDigits (acc * 10 + digVal c) cs
    else if c = '_' then
      match cs with
      | [] => none
      | d :: ds => if d.isDigit then goDigits (acc * 10 + digVal d) ds else none
    else none

/-- Parse a full Python `digitpart` occupying the whole list:
`digit (("_")? digit)*`. -/
def parseDigitpartAll : List Char → Option Nat
  | [] => none
  | c :: cs => if c.isDigit then goDigits (digVal c) cs else none

/-- Strip Python whitespace from both ends. -/
def pyStrip (cs : List Char) : List Char :=
  ((cs.dropWhile isPySpace).reverse.dropWhile isPySpace).reverse

/-- Model of Python `int(s)` on a string: optional surrounding whitespace,
optional sign, then a nonempty digit sequence with optional single
underscores between digits; anything else raises `ValueError`,
modelled as `none`. This is the coercion `int(unique_key)` applied to
the natural key in `upsert_service_request`. -/
def pyIntOfString (s : String) : Option Int :=
  let cs := pyStrip s.data
  match cs with
  | '+' :: rest => (parseDigitpartAll rest).map (fun n => (n : Int))
  | '-' :: rest => (parseDigitpartAll rest).map (fun n => -(n : Int))
  | rest => (parseDigitpartAll rest).map (fun n => (n : Int))

/-- Consume a Python `digitpart` prefix (digits with single underscores
between digits); `none` if there is no leading digit, otherwise the
remaining characters. -/
def parseDigitpartPrefix : List Char → Option (List Char)
  | [] => none
  | c :: cs =>
    if c.isDigit then some (goPrefix cs) else none
where
  /-- Consume as many `digit` / `"_" digit` pairs as possible. -/
  goPrefix : List Char → List Char
  | [] => []
  | c :: cs =>
    if c.isDigit then goPrefix cs
    else if c = '_' then
      match cs with
      | [] => '_' :: []
      | d :: ds => if d.isDigit then goPrefix ds else '_' :: d :: ds
    else c :: cs

/-- Exponent-or-end tail of a Python float literal: empty, or
`(e|E) (sign)? digitpart` exactly to the end. -/
def floatExpTail : List Char → Bool
  | [] => true
  | e :: rest =>
    if e = 'e' || e = 'E' then
      let rest' := match rest with
        | '+' :: r => r
        | '-' :: r => r
        | r => r
      match parseDigitpartPrefix rest' with
      | some [] => true
      | _ => false
    else false

/-- Does the (sign-stripped, lowercased) body spell a float infinity/nan
literal? -/
def floatNamedLiteral (cs : List Char) : Bool :=
  let l := cs.map Char.toLower
  l = "inf".data || l = "infinity".data || l = "nan".data

/-- Model of whether Python `float(s)` succeeds: optional surrounding
whitespace, optional sign, then either a named literal (`inf`,
`infinity`, `nan`, case-insensitive) or a numeric literal
`(digitpart ("." digitpart?)? | "." digitpart) exponent?`.
This is the coercion `float(...)` applied to `latitude`/`longitude`
in `upsert_service_request`; `false` models a raised `ValueError`. -/
def pyFloatOk (s : String) : Bool :=
  let cs := pyStrip s.data
  let body := match cs with
    | '+' :: rest => rest
    | '-' :: rest => rest
    | rest => rest
  if floatNamedLiteral body then true
  else
    match parseDigitpartPrefix body with
    | some rest =>
      let afterFrac := match rest with
        | '.' :: r =>
          match parseDigitpartPrefix r with
          | some r' => r'
          | none => r
        | _ => rest
      floatExpTail afterFrac
    | none =>
      match body with
      | '.' :: r =>
        match parseDigitpartPrefix r with
        | some rest => floatExpTail rest
        | none => false
      | _ => false

/-! ## Date normalizer (`parse_iso`)

`parse_iso` tries `datetime.strptime` with the two formats in
`ISO_FORMATS` (`%Y-%m-%dT%H:%M:%S.%f`, then `%Y-%m-%dT%H:%M:%S`), and on
success renders `datetime.replace(tzinfo=timezone.utc).isoformat()`.
CPython's `_strptime` compiles each format to a regex (with
`re.IGNORECASE`, so the literal `T` also matches `t`) that must consume
the whole input, and then the `datetime` constructor validates the
fields (raising `ValueError` on e.g. day 31 of a 30-day month, second
60/61, or year 0), which falls through to the next format. -/

/-- A parsed Python `datetime` value (naive fields; the code attaches
UTC with `replace(tzinfo=timezone.utc)` only for rendering). -/
structure PyDateTime where
  year : Nat
  month : Nat
  day : Nat
  hour : Nat
  minute : Nat
  second : Nat
  microsecond : Nat
deriving DecidableEq, Repr

/-- Parse a two-digit-or-one-digit numeric field the way `_strptime`'s
regex alternations do: a two-digit match is taken when its value lies in
`[lo2, hi2]`, otherwise a one-digit match with value in `[lo1, hi1]`.
Greedy matching coincides with regex backtracking here because in both
formats the character after each such field is a non-digit literal or
the end of the string. -/
def parseField (lo2 hi2 lo1 hi1 : Nat) : List Char → Option (Nat × List Char)
  | c1 :: c2 :: rest =>
    if c1.isDigit && c2.isDigit && decide (lo2 ≤ digVal c1 * 10 + digVal c2)
        && decide (digVal c1 * 10 + digVal c2 ≤ hi2) then
      some (digVal c1 * 10 + digVal c2, rest)
    else if c1.isDigit && decide (lo1 ≤ digVal c1) && decide (digVal c1 ≤ hi1) then
      some (digVal c1, c2 :: rest)
    else none
  | [c1] =>
    if c1.isDigit && decide (lo1 ≤ digVal c1) && decide (digVal c1 ≤ hi1) then
      some (digVal c1, [])
    else none
  | [] => none

/-- `%Y`: exactly four digits. -/
def parseYear4 : List Char → Option (Nat × List Char)
  | c1 :: c2 :: c3 :: c4 :: rest =>
    if c1.isDigit && c2.isDigit && c3.isDigit && c4.isDigit then
      some (((digVal c1 * 10 + digVal c2) * 10 + digVal c3) * 10 + digVal c4, rest)
    else none
  | _ => none

/-- A literal character of the format string. -/
def parseLit (a : Char) : List Char → Option (List Char)
  | c :: rest => if c = a then some rest else none
  | [] => none

/-- The literal `T`, matched case-insensitively (the `_strptime` regex is
compiled with `re.IGNORECASE`). -/
def parseLitT : List Char → Option (List Char)
  | c :: rest => if c = 'T' || c = 't' then some rest else none
  | [] => none

/-- `%f` at the end of the format: one to six digits that must exhaust
the input, scaled to microseconds by right-padding with zeros. -/
def parseMicro (cs : List Char) : Option Nat :=
  if cs ≠ [] ∧ cs.length ≤ 6 ∧ cs.all Char.isDigit then
    some ((cs.foldl (fun a c => a * 10 + digVal c) 0) * 10 ^ (6 - cs.length))
  else none

/-- Structural (regex-level) parse of `%Y-%m-%dT%H:%M:%S.%f`. -/
def strptimeFields1 (cs : List Char) : Option PyDateTime := do
  let (y, cs) ← parseYear4 cs
  let cs ← parseLit '-' cs
  let (mo, cs) ← parseField 1 12 1 9 cs
  let cs ← parseLit '-' cs
  let (d, cs) ← parseField 1 31 1 9 cs
  let cs ← parseLitT cs
  let (h, cs) ← parseField 0 23 0 9 cs
  let cs ← parseLit ':' cs
  let (mi, cs) ← parseField 0 59 0 9 cs
  let cs ← parseLit ':' cs
  let (s, cs) ← parseField 0 61 0 9 cs
  let cs ← parseLit '.' cs
  let f ← parseMicro cs
  pure ⟨y, mo, d, h, mi, s, f⟩

/-- Structural (regex-level) parse of `%Y-%m-%dT%H:%M:%S` (whole input). -/
def strptimeFields2 (cs : List Char) : Option PyDateTime := do
  let (y, cs) ← parseYear4 cs
  let cs ← parseLit '-' cs
  let (mo, cs) ← parseField 1 12 1 9 cs
  let cs ← parseLit '-' cs
  let (d, cs) ← parseField 1 31 1 9 cs
  let cs ← parseLitT cs
  let (h, cs) ← parseField 0 23 0 9 cs
  let cs ← parseLit ':' cs
  let (mi, cs) ← parseField 0 59 0 9 cs
  let cs ← parseLit ':' cs
  let (s, cs) ← parseField 0 61 0 9 cs
  if cs = [] then pure ⟨y, mo, d, h, mi, s, 0⟩ else none

/-- Gregorian leap year, as `calendar.isleap`. -/
def pyLeapYear (y : Nat) : Bool :=
  y % 4 = 0 && (y % 100 ≠ 0 || y % 400 = 0)

/-- Days in a month, as `calendar.monthrange` / the `datetime` validator. -/
def daysInMonth (y m : Nat) : Nat :=
  if m = 2 then (if pyLeapYear y then 29 else 28)
  else if m = 4 || m = 6 || m = 9 || m = 11 then 30
  else 31

/-- The extra validation done by the `datetime` constructor beyond what
the `_strptime` regex enforces: year at least `MINYEAR = 1`, day within
the month, second at most 59 (the regex admits leap seconds 60/61,
which the constructor rejects). -/
def ctorOk (d : PyDateTime) : Bool :=
  decide (1 ≤ d.year) && decide (d.day ≤ daysInMonth d.year d.month)
    && decide (d.second ≤ 59)

/-- `datetime.strptime(s, "%Y-%m-%dT%H:%M:%S.%f")`, `none` for a raised
`ValueError` (regex mismatch or constructor rejection). -/
def strptime1 (s : String) : Option PyDateTime :=
  match strptimeFields1 s.data with
  | some d => if ctorOk d then some d else none
  | none => none

/-- `datetime.strptime(s, "%Y-%m-%dT%H:%M:%S")`, `none` for a raised
`ValueError`. -/
def strptime2 (s : String) : Option PyDateTime :=
  match strptimeFields2 s.data with
  | some d => if ctorOk d then some d else none
  | none => none

/-- Zero-pad a decimal rendering to width `w`. -/
def padNum (w n : Nat) : String :=
  let s := toString n
  (List.replicate (w - s.length) '0').asString ++ s

/-- `datetime.replace(tzinfo=timezone.utc).isoformat()`: the canonical
UTC-qualified rendering; microseconds are printed as six digits when
nonzero and omitted entirely when zero. -/
def isoformatUTC (d : PyDateTime) : String :=
  padNum 4 d.year ++ "-" ++ padNum 2 d.month ++ "-" ++ padNum 2 d.day ++ "T" ++
  padNum 2 d.hour ++ ":" ++ padNum 2 d.minute ++ ":" ++ padNum 2 d.second ++
  (if d.microsecond = 0 then "" else "." ++ padNum 6 d.microsecond) ++ "+00:00"

/-- `parse_iso` from `src/etl.py`: `None`/empty input gives `None`
(Python truthiness of `if not dt`); otherwise the two formats are tried
in order and the first success is rendered; if both fail the input is
returned unchanged. -/
def parse_iso : Option String → Option String
  | none => none
  | some s =>
    if s = "" then none
    else
      match strptime1 s with
      | some d => some (isoformatUTC d)
      | none =>
        match strptime2 s with
        | some d => some (isoformatUTC d)
        | none => some s

/-! ## Store model and dimension resolver -/

/-- One raw record of the API's JSON array, with the fields the ETL
reads; every field is an optional string (`row.get(...)`). -/
structure Rec where
  unique_key : Option String := none
  created_date : Option String := none
  closed_date : Option String := none
  resolution_description : Option String := none
  incident_zip : Option String := none
  latitude : Option String := none
  longitude : Option String := none
  agency : Option String := none
  complaint_type : Option String := none
  descriptor : Option String := none
  borough : Option String := none
deriving DecidableEq, Repr

/-- A dimension table: rows of (surrogate id, label) plus the next id
SQLite would assign on insert. -/
structure DimTable where
  rows : List (Nat × String) := []
  nextId : Nat := 1
deriving DecidableEq, Repr

/-- A per-run in-memory cache (the Python dict), newest entry first.
The cached value is itself optional, mirroring `dim_id = row[0] if row
else None`. -/
abbrev Cache := List (String × Option Nat)

/-- `value in cache` / `cache[value]`. -/
def cacheLookup (cache : Cache) (v : String) : Option (Option Nat) :=
  (cache.find? (fun p => p.1 = v)).map (·.2)

/-- `SELECT id FROM table WHERE name = ?`. -/
def dimLookup (t : DimTable) (v : String) : Option Nat :=
  (t.rows.find? (fun p => p.2 = v)).map (·.1)

/-- `INSERT OR IGNORE INTO table(name) VALUES (?)` under the unique
constraint on `name`. -/
def dimInsertOrIgnore (t : DimTable) (v : String) : DimTable :=
  if t.rows.any (fun p => p.2 = v) then t
  else ⟨t.rows ++ [(t.nextId, v)], t.nextId + 1⟩

/-- `ensure_dimensions` from `src/etl.py`: `None` maps to `None`
immediately; a cache hit returns the cached value without touching the
table; a cache miss insert-or-ignores the label, reads the id back,
caches it and returns it. -/
def ensure_dimensions : Option String → DimTable → Cache →
    Option Nat × DimTable × Cache
  | none, t, cache => (none, t, cache)
  | some v, t, cache =>
    match cacheLookup cache v with
    | some r => (r, t, cache)
    | none =>
      let t' := dimInsertOrIgnore t v
      let dimId := dimLookup t' v
      (dimId, t', (v, dimId) :: cache)

/-- One row of the `service_requests` fact table. Coordinates are kept
as their validated source literals (the Python code stores
`float(...)` of exactly these strings). -/
structure FactRow where
  unique_key : Int
  created_date : Option String
  closed_date : Option String
  resolution_description : Option String
  incident_zip : Option String
  latitude : Option String
  longitude : Option String
  agency_id : Option Nat
  complaint_type_id : Option Nat
  descriptor_id : Option Nat
  borough_id : Option Nat
deriving DecidableEq, Repr

/-- The relational store: the fact table and the four dimension tables. -/
structure DB where
  facts : List FactRow := []
  agency : DimTable := {}
  complaint_type : DimTable := {}
  descriptor : DimTable := {}
  borough : DimTable := {}
deriving DecidableEq, Repr

/-- The four per-run caches of `run_etl`. -/
structure Caches where
  agency : Cache := []
  complaint_type : Cache := []
  descriptor : Cache := []
  borough : Cache := []
deriving DecidableEq, Repr

/-! ## Idempotent upsert (`upsert_service_request`) -/

/-- `float(row.get(f)) if row.get(f) else None` for a coordinate field:
`None` and `""` are falsy and give `None`; a nonempty string that
`float` accepts is kept; a nonempty string that `float` rejects raises
`ValueError`, modelled as `Except.error`. -/
def coerceCoord (v : Option String) : Except Unit (Option String) :=
  match v with
  | none => .ok none
  | some s =>
    if s = "" then .ok none
    else if pyFloatOk s then .ok (some s) else .error ()

/-- The natural key actually used: `row.get("unique_key")` when present
and `int(...)`-coercible; `none` collapses the two early-return branches
(missing key, `ValueError`/`TypeError` on coercion). -/
def recKey (r : Rec) : Option Int := r.unique_key.bind pyIntOfString

/-- The body of `upsert_service_request` after the key check: coerce the
coordinates (which can raise), resolve the four dimension references,
and build the fact row to be written, together with the store (dimension
tables updated, facts untouched) and caches after resolution. -/
def resolveRecord (db : DB) (c : Caches) (row : Rec) (k : Int) :
    Except Unit (FactRow × DB × Caches) :=
  match coerceCoord row.latitude with
  | .error e => .error e
  | .ok lat =>
    match coerceCoord row.longitude with
    | .error e => .error e
    | .ok lon =>
      let a := ensure_dimensions row.agency db.agency c.agency
      let ct := ensure_dimensions row.complaint_type db.complaint_type c.complaint_type
      let de := ensure_dimensions row.descriptor db.descriptor c.descriptor
      let b := ensure_dimensions row.borough db.borough c.borough
      .ok (⟨k, parse_iso row.created_date, parse_iso row.closed_date,
            row.resolution_description, row.incident_zip, lat, lon,
            a.1, ct.1, de.1, b.1⟩,
          { db with agency := a.2.1, complaint_type := ct.2.1,
                    descriptor := de.2.1, borough := b.2.1 },
          ⟨a.2.2, ct.2.2, de.2.2, b.2.2⟩)

/-- `INSERT ... ON CONFLICT(unique_key) DO UPDATE SET <every mutable
field>`: replace the row with the same key if one exists, else append. -/
def upsertFact (facts : List FactRow) (fr : FactRow) : List FactRow :=
  if facts.any (fun x => x.unique_key = fr.unique_key) then
    facts.map (fun x => if x.unique_key = fr.unique_key then fr else x)
  else facts ++ [fr]

/-- `upsert_service_request` from `src/etl.py`: return silently (state
unchanged) when the key is missing or non-coercible, otherwise resolve
the record (propagating a coordinate `ValueError`) and upsert the fact
row. -/
def upsert_service_request (db : DB) (c : Caches) (row : Rec) :
    Except Unit (DB × Caches) :=
  match recKey row with
  | none => .ok (db, c)
  | some k =>
    match resolveRecord db c row k with
    | .error e => .error e
    | .ok (fr, db', c') => .ok ({ db' with facts := upsertFact db'.facts fr }, c')

/-- One page transaction (`with conn:` around the record loop): records
are upserted in order; the first raised exception aborts the whole page
(`Except.error`, nothing committed). -/
def processPage (db : DB) (c : Caches) : List Rec → Except Unit (DB × Caches)
  | [] => .ok (db, c)
  | r :: rest =>
    match upsert_service_request db c r with
    | .error e => .error e
    | .ok (db', c') => processPage db' c' rest

/-! ## Fetch client with tenacity retry (`fetch_page`) -/

/-- The observable behaviour of one HTTP attempt: either `requests.get`
returns a response (success flag, status code, body that may or may not
parse as JSON), or it raises some non-`SocrataError` exception. -/
inductive AttemptResult where
  | httpResp (ok : Bool) (status : Nat) (body : Option (List Rec))
  | raiseOther (e : Nat)
deriving DecidableEq, Repr

/-- The exceptions `fetch_page` can raise: `SocrataError` for a
non-success HTTP status, `SocrataError` for an unparseable body, or any
other exception from the HTTP call itself. -/
inductive FetchErr where
  | socrataHttp (status : Nat)
  | socrataJson
  | other (e : Nat)
deriving DecidableEq, Repr

/-- `retry_if_exception_type(SocrataError)`: only `SocrataError` is
retried. -/
def isSocrata : FetchErr → Bool
  | .socrataHttp _ => true
  | .socrataJson => true
  | .other _ => false

/-- The undecorated body of `fetch_page`: raise `SocrataError` on a
non-ok status, return `resp.json()` when it parses, raise `SocrataError`
when it does not; any exception from `requests.get` itself propagates. -/
def fetchOnce : AttemptResult → Except FetchErr (List Rec)
  | .raiseOther e => .error (.other e)
  | .httpResp ok status body =>
    if !ok then .error (.socrataHttp status)
    else
      match body with
      | none => .error .socrataJson
      | some d => .ok d

/-- `wait_exponential(multiplier=1, min=1, max=16)` evaluated after the
`n`-th attempt has failed: `max(min, min(multiplier * 2^(n-1), max))`
(tenacity computes `exp_base ** (attempt_number - 1)`). -/
def waitExp (n : Nat) : Nat := max 1 (min (2 ^ (n - 1)) 16)

/-- The outcome of a decorated `fetch_page` call: how many attempts were
made, the sequence of backoff sleeps, and the final result. -/
structure FetchOutcome where
  attempts : Nat
  sleeps : List Nat
  result : Except FetchErr (List Rec)
deriving Repr

/-- The tenacity retry loop with `stop_after_attempt(5)` and
`reraise=True`: `attempt` is the 1-based attempt number, the second
argument the number of retries still allowed. On the final attempt the
result (success or the original exception) propagates; otherwise a
`SocrataError` sleeps `waitExp attempt` and retries, while any other
exception propagates immediately. -/
def tenacityGo (b : Nat → AttemptResult) : Nat → Nat → FetchOutcome
  | attempt, 0 => ⟨attempt, [], fetchOnce (b attempt)⟩
  | attempt, remaining + 1 =>
    match fetchOnce (b attempt) with
    | .ok d => ⟨attempt, [], .ok d⟩
    | .error e =>
      if isSocrata e then
        let rest := tenacityGo b (attempt + 1) remaining
        ⟨rest.attempts, waitExp attempt :: rest.sleeps, rest.result⟩
      else ⟨attempt, [], .error e⟩

/-- `fetch_page` under its `@retry(stop=stop_after_attempt(5), ...)`
decorator, as a function of the behaviour of each attempt. -/
def fetch_page (b : Nat → AttemptResult) : FetchOutcome := tenacityGo b 1 4

/-! ## Orchestrator page loop (`run_etl`) -/

/-- The mutable state of `run_etl`'s `while True` loop. -/
structure LoopState where
  db : DB
  caches : Caches
  offset : Nat
  fetched : Nat
deriving Repr

/-- The `while True` page loop of `run_etl`, fuel-indexed (`none` means
the fuel ran out before the loop exited): fetch the page at the current
offset; an empty page breaks; otherwise the page is committed as one
transaction (an exception aborts the run), `fetched` advances by the
page length, `offset` by the page size, and `if total and fetched >=
total` breaks. On exit the reported processed count and the store are
returned. -/
def runLoop (pages : Nat → List Rec) (total page_size : Nat) :
    Nat → LoopState → Option (Except Unit (Nat × DB))
  | 0, _ => none
  | fuel + 1, st =>
    let data := pages st.offset
    if data = [] then some (.ok (st.fetched, st.db))
    else
      match processPage st.db st.caches data with
      | .error e => some (.error e)
      | .ok dc =>
        let fetched' := st.fetched + data.length
        let offset' := st.offset + page_size
        if total ≠ 0 ∧ fetched' ≥ total then some (.ok (fetched', dc.1))
        else runLoop pages total page_size fuel ⟨dc.1, dc.2, offset', fetched'⟩

/-- The loop's initial state: offset 0, nothing fetched, empty caches
(the store contents at loop entry are arbitrary). -/
def initState (db : DB) : LoopState := ⟨db, {}, 0, 0⟩

/-! ## Theorems -/

/-- C4: the date normalizer returns null for null or empty input;
`"2023-01-01T12:34:56.789"` maps to the canonical UTC form
`2023-01-01T12:34:56.789000+00:00`; `"2023-01-01T12:34:56"` maps to the
UTC form with zero microseconds (rendered without a fraction); and every
non-empty input matching neither recognized format is returned
unchanged, with no exception raised (the function is total). -/
theorem parse_iso_spec :
    parse_iso none = none ∧ parse_iso (some "") = none ∧
    parse_iso (some "2023-01-01T12:34:56.789")
      = some "2023-01-01T12:34:56.789000+00:00" ∧
    parse_iso (some "2023-01-01T12:34:56") = some "2023-01-01T12:34:56+00:00" ∧
    (∀ s : String, s ≠ "" → strptime1 s = none → strptime2 s = none →
      parse_iso (some s) = some s) := by
  refine ⟨rfl, by rfl, by rfl, by rfl, fun s hs h1 h2 => ?_⟩
  simp only [parse_iso, if_neg hs, h1, h2]

/-- C4 witness: the pass-through branch evaluated at `"not-a-date"`. -/
theorem parse_iso_spec_witness :
    parse_iso (some "not-a-date") = some "not-a-date" :=
  parse_iso_spec.2.2.2.2 "not-a-date" (by decide) (by rfl) (by rfl)

/-- C7 counterexample: the resolver called with the empty-string label
on a fresh table and cache does not return null and does not leave the
store untouched — `ensure_dimensions` only checks `value is None`, so
`""` is inserted as an ordinary label and cached. -/
theorem ensure_dimensions_empty_label_counterexample :
    (ensure_dimensions (some "") {} []).1 ≠ none ∧
    (ensure_dimensions (some "") {} []).2.1 ≠ ({} : DimTable) ∧
    (ensure_dimensions (some "") {} []).2.2 ≠ ([] : Cache) := by
  decide

/-- C7 (amended): a null label makes the resolver return null
immediately, inserting nothing and leaving the cache and the store
untouched; an empty-string label is treated like any other label. -/
theorem ensure_dimensions_none (t : DimTable) (cache : Cache) :
    ensure_dimensions none t cache = (none, t, cache) := rfl

/-- C5: a record whose natural key is missing or cannot be coerced to an
integer is skipped: the upsert returns without error and without
touching the store or the caches, and a page containing such a record
commits exactly as the same page without it. -/
theorem upsert_skips_bad_key (r : Rec) (h : recKey r = none) :
    (∀ (db : DB) (c : Caches), upsert_service_request db c r = .ok (db, c)) ∧
    (∀ (db : DB) (c : Caches) (rs1 rs2 : List Rec),
      processPage db c (rs1 ++ r :: rs2) = processPage db c (rs1 ++ rs2)) := by
  have h1 : ∀ (db : DB) (c : Caches), upsert_service_request db c r = .ok (db, c) := by
    intro db c
    unfold upsert_service_request
    rw [h]
  refine ⟨h1, fun db c rs1 rs2 => ?_⟩
  induction rs1 generalizing db c with
  | nil => simp [processPage, h1 db c]
  | cons a as ih =>
    simp only [List.cons_append, processPage]
    cases hu : upsert_service_request db c a with
    | error e => rfl
    | ok p => exact ih p.1 p.2

/-- C5 witness: the record with key `"abc"` is skipped on the empty
store. -/
theorem upsert_skips_bad_key_witness :
    upsert_service_request {} {} { unique_key := some "abc" } = .ok ({}, {}) :=
  (upsert_skips_bad_key { unique_key := some "abc" } (by rfl)).1 {} {}

/-- C3, the code evaluated at the failing input: a record whose
latitude is present but non-numeric makes `upsert_service_request`
raise (`float("abc")` raises `ValueError`), and a page containing it
aborts as a whole instead of storing the record with a null
coordinate. -/
theorem bad_coordinate_aborts_page :
    upsert_service_request {} {}
      { unique_key := some "7", latitude := some "abc" } = .error () ∧
    processPage {} {}
      [{ unique_key := some "42", created_date := some "2023-01-01T12:34:56" },
       { unique_key := some "7", latitude := some "abc" }] = .error () := by
  exact ⟨rfl, rfl⟩

/-! ## Dimension cache correctness (C6) -/

/-- Number of rows of a dimension table carrying a given label. -/
def dimCount (t : DimTable) (v : String) : Nat :=
  t.rows.countP (fun p => p.2 = v)

/-- `n` further resolutions of the same label, threading table and
cache (the per-record calls of a run that reference the label again). -/
def resolveTimes (v : String) : Nat → DimTable × Cache → DimTable × Cache
  | 0, s => s
  | n + 1, s =>
    let r := ensure_dimensions (some v) s.1 s.2
    resolveTimes v n (r.2.1, r.2.2)

theorem find?_append_of_none {α : Type} {p : α → Bool} {l1 l2 : List α}
    (h : l1.find? p = none) : (l1 ++ l2).find? p = l2.find? p := by
  induction l1 with
  | nil => rfl
  | cons a as ih =>
    cases hpa : p a with
    | true =>
      rw [List.find?_cons_of_pos _ hpa] at h
      exact absurd h (by simp)
    | false =>
      have hpa' : ¬ p a = true := by simp [hpa]
      rw [List.cons_append, List.find?_cons_of_neg _ hpa']
      rw [List.find?_cons_of_neg _ hpa'] at h
      exact ih h

/-- A resolver call on a label absent from both the table and the cache
inserts the label with the table's next id, reads that id back, and
caches it. -/
theorem ensure_fresh (v : String) (t : DimTable) (cache : Cache)
    (hft : dimCount t v = 0) (hfc : cacheLookup cache v = none) :
    ensure_dimensions (some v) t cache
      = (some t.nextId, ⟨t.rows ++ [(t.nextId, v)], t.nextId + 1⟩,
         (v, some t.nextId) :: cache) := by
  have habs : ∀ x ∈ t.rows, ¬ (x.2 = v) := by
    intro x hx
    have := List.countP_eq_zero.mp hft x hx
    simpa using this
  have hany : t.rows.any (fun p => p.2 = v) = false := by
    rw [List.any_eq_false]
    intro x hx
    simpa using habs x hx
  have hfind : t.rows.find? (fun p => p.2 = v) = none :=
    List.find?_eq_none.mpr (fun x hx => by simpa using habs x hx)
  simp only [ensure_dimensions]
  rw [hfc]
  simp only [dimInsertOrIgnore, hany, Bool.false_eq_true, if_false]
  simp only [dimLookup, find?_append_of_none hfind]
  simp [List.find?]

/-- A resolver call on a cached label returns the cached id and leaves
both the table and the cache untouched. -/
theorem ensure_hit (v : String) (t : DimTable) (cache : Cache) (r : Option Nat)
    (h : cacheLookup cache v = some r) :
    ensure_dimensions (some v) t cache = (r, t, cache) := by
  simp only [ensure_dimensions]
  rw [h]

/-- C6: resolving a previously unseen label (absent from the table and
the cache) inserts exactly one row for it — the table's next id — and
every later resolution of that label, however many times it recurs, is
served from the cache with the same id and without writing to the
store. -/
theorem ensure_dimensions_cache_correct (v : String) (t : DimTable) (cache : Cache)
    (hft : dimCount t v = 0) (hfc : cacheLookup cache v = none) :
    dimCount (ensure_dimensions (some v) t cache).2.1 v = 1 ∧
    (ensure_dimensions (some v) t cache).1 = some t.nextId ∧
    ensure_dimensions (some v) (ensure_dimensions (some v) t cache).2.1
        (ensure_dimensions (some v) t cache).2.2
      = (some t.nextId, (ensure_dimensions (some v) t cache).2.1,
         (ensure_dimensions (some v) t cache).2.2) ∧
    (∀ n, resolveTimes v n ((ensure_dimensions (some v) t cache).2.1,
        (ensure_dimensions (some v) t cache).2.2)
      = ((ensure_dimensions (some v) t cache).2.1,
         (ensure_dimensions (some v) t cache).2.2)) := by
  have hmain := ensure_fresh v t cache hft hfc
  rw [hmain]
  have hhit : cacheLookup ((v, some t.nextId) :: cache) v = some (some t.nextId) := by
    simp [cacheLookup, List.find?]
  have hstep : ensure_dimensions (some v)
      (⟨t.rows ++ [(t.nextId, v)], t.nextId + 1⟩ : DimTable)
      ((v, some t.nextId) :: cache)
      = (some t.nextId, ⟨t.rows ++ [(t.nextId, v)], t.nextId + 1⟩,
         (v, some t.nextId) :: cache) :=
    ensure_hit _ _ _ _ hhit
  refine ⟨?_, rfl, hstep, ?_⟩
  · have hft' : t.rows.countP (fun p => p.2 = v) = 0 := hft
    simp [dimCount, List.countP_append, hft']
  · intro n
    induction n with
    | zero => rfl
    | succ n ih =>
      simp only [resolveTimes]
      rw [hstep]
      exact ih

/-- C6 witness: the label `"NYPD"` on a fresh table and cache. -/
theorem ensure_dimensions_cache_correct_witness :
    dimCount (ensure_dimensions (some "NYPD") {} []).2.1 "NYPD" = 1 ∧
    (ensure_dimensions (some "NYPD") {} []).1 = some (1 : Nat) ∧
    ensure_dimensions (some "NYPD") (ensure_dimensions (some "NYPD") {} []).2.1
        (ensure_dimensions (some "NYPD") {} []).2.2
      = (some (1 : Nat), (ensure_dimensions (some "NYPD") {} []).2.1,
         (ensure_dimensions (some "NYPD") {} []).2.2) ∧
    (∀ n, resolveTimes "NYPD" n ((ensure_dimensions (some "NYPD") {} []).2.1,
        (ensure_dimensions (some "NYPD") {} []).2.2)
      = ((ensure_dimensions (some "NYPD") {} []).2.1,
         (ensure_dimensions (some "NYPD") {} []).2.2)) :=
  ensure_dimensions_cache_correct "NYPD" {} [] (by rfl) (by rfl)

/-! ## Retry policy (C2, C9) -/

/-- The `i`-th attempt fails with a transient (`SocrataError`) failure. -/
def transientFail (b : Nat → AttemptResult) (i : Nat) : Prop :=
  ∃ e, fetchOnce (b i) = .error e ∧ isSocrata e = true

/-- C2: the retry policy of `fetch_page`. The wait after the `n`-th
failed attempt is exactly the doubling sequence `2^(n-1)` capped at 16;
whenever the first `k - 1` attempts (`k ≤ 5`) fail transiently and
attempt `k` succeeds, the call returns that success after exactly `k`
attempts with backoffs `2^0, ..., 2^(k-2)` (so 4 transient failures
followed by success make exactly 5 attempts); and when all 5 attempts
fail transiently, the 5th failure propagates after backoffs
`[1, 2, 4, 8]`, whose total is at least 15. -/
theorem fetch_page_retry_policy (b : Nat → AttemptResult) :
    (∀ n, 1 ≤ n → waitExp n = min (2 ^ (n - 1)) 16) ∧
    (∀ k d, 1 ≤ k → k ≤ 5 →
      (∀ i, 1 ≤ i → i < k → transientFail b i) →
      fetchOnce (b k) = .ok d →
      fetch_page b = ⟨k, (List.range (k - 1)).map (fun j => 2 ^ j), .ok d⟩) ∧
    ((∀ i, 1 ≤ i → i ≤ 5 → transientFail b i) →
      ∃ e5, fetchOnce (b 5) = .error e5 ∧ isSocrata e5 = true ∧
        fetch_page b = ⟨5, [1, 2, 4, 8], .error e5⟩ ∧
        (15 : Nat) ≤ ([1, 2, 4, 8] : List Nat).sum) := by
  refine ⟨?_, ?_, ?_⟩
  · intro n hn
    have h1 : 1 ≤ 2 ^ (n - 1) := Nat.one_le_two_pow
    have : 1 ≤ min (2 ^ (n - 1)) 16 := le_min h1 (by norm_num)
    simp [waitExp, Nat.max_eq_right this]
  · intro k d hk1 hk5 htrans hok
    interval_cases k
    · simp [fetch_page, tenacityGo, hok]
    · obtain ⟨e1, he1, hs1⟩ := htrans 1 (by omega) (by omega)
      simp [fetch_page, tenacityGo, he1, hs1, hok, waitExp, List.range_succ]
    · obtain ⟨e1, he1, hs1⟩ := htrans 1 (by omega) (by omega)
      obtain ⟨e2, he2, hs2⟩ := htrans 2 (by omega) (by omega)
      simp [fetch_page, tenacityGo, he1, hs1, he2, hs2, hok, waitExp, List.range_succ]
    · obtain ⟨e1, he1, hs1⟩ := htrans 1 (by omega) (by omega)
      obtain ⟨e2, he2, hs2⟩ := htrans 2 (by omega) (by omega)
      obtain ⟨e3, he3, hs3⟩ := htrans 3 (by omega) (by omega)
      simp [fetch_page, tenacityGo, he1, hs1, he2, hs2, he3, hs3, hok, waitExp,
        List.range_succ]
    · obtain ⟨e1, he1, hs1⟩ := htrans 1 (by omega) (by omega)
      obtain ⟨e2, he2, hs2⟩ := htrans 2 (by omega) (by omega)
      obtain ⟨e3, he3, hs3⟩ := htrans 3 (by omega) (by omega)
      obtain ⟨e4, he4, hs4⟩ := htrans 4 (by omega) (by omega)
      simp [fetch_page, tenacityGo, he1, hs1, he2, hs2, he3, hs3, he4, hs4, hok,
        waitExp, List.range_succ]
  · intro htrans
    obtain ⟨e1, he1, hs1⟩ := htrans 1 (by omega) (by omega)
    obtain ⟨e2, he2, hs2⟩ := htrans 2 (by omega) (by omega)
    obtain ⟨e3, he3, hs3⟩ := htrans 3 (by omega) (by omega)
    obtain ⟨e4, he4, hs4⟩ := htrans 4 (by omega) (by omega)
    obtain ⟨e5, he5, hs5⟩ := htrans 5 (by omega) (by omega)
    refine ⟨e5, he5, hs5, ?_, by norm_num⟩
    simp [fetch_page, tenacityGo, he1, hs1, he2, hs2, he3, hs3, he4, hs4, he5,
      waitExp]

/-- C2 witness: four HTTP-500 failures followed by a success give 5
attempts, sleeps `[1, 2, 4, 8]`, and the successful (empty) payload. -/
theorem fetch_page_retry_policy_witness :
    fetch_page (fun n => if n ≤ 4 then .httpResp false 500 none
        else .httpResp true 200 (some []))
      = ⟨5, (List.range 4).map (fun j => 2 ^ j), .ok []⟩ :=
  (fetch_page_retry_policy _).2.1 5 [] (by omega) (by omega)
    (fun i h1 h2 => ⟨.socrataHttp 500, by interval_cases i <;> exact ⟨rfl, rfl⟩⟩)
    (by rfl)

/-- C9: `SocrataError` is raised exactly for a non-success HTTP status
or a body that fails to parse as JSON, and any other exception raised
during the HTTP call propagates from the first attempt immediately —
one attempt, no backoff sleep. -/
theorem fetch_page_nontransient (b : Nat → AttemptResult) :
    (∀ (ok : Bool) (status : Nat) (body : Option (List Rec)),
      (∃ e, fetchOnce (.httpResp ok status body) = .error e ∧ isSocrata e = true) ↔
        (ok = false ∨ body = none)) ∧
    (∀ e, fetchOnce (b 1) = .error e → isSocrata e = false →
      fetch_page b = ⟨1, [], .error e⟩) := by
  constructor
  · intro ok status body
    constructor
    · rintro ⟨e, he, _⟩
      cases ok with
      | false => exact Or.inl rfl
      | true =>
        cases body with
        | none => exact Or.inr rfl
        | some d => simp [fetchOnce] at he
    · rintro (rfl | rfl)
      · exact ⟨.socrataHttp status, rfl, rfl⟩
      · cases ok with
        | false => exact ⟨.socrataHttp status, rfl, rfl⟩
        | true => exact ⟨.socrataJson, rfl, rfl⟩
  · intro e he hs
    simp [fetch_page, tenacityGo, he, hs]

/-- C9 witness: a connection-style exception on the first attempt
propagates immediately. -/
theorem fetch_page_nontransient_witness :
    fetch_page (fun _ => .raiseOther 3) = ⟨1, [], .error (.other 3)⟩ :=
  (fetch_page_nontransient (fun _ => .raiseOther 3)).2 (.other 3) (by rfl) (by rfl)

/-! ## Idempotent upsert (C1) -/

/-- Inversion of a successful `resolveRecord`: the fact table is
untouched and the built row carries the given key, the normalized
timestamps, the pass-through fields, the coerced coordinates, and the
four dimension ids resolved against the incoming state. -/
theorem resolveRecord_spec (db : DB) (c : Caches) (r : Rec) (k : Int)
    (fr : FactRow) (db' : DB) (c' : Caches)
    (h : resolveRecord db c r k = .ok (fr, db', c')) :
    db'.facts = db.facts ∧ fr.unique_key = k ∧
    fr.created_date = parse_iso r.created_date ∧
    fr.closed_date = parse_iso r.closed_date ∧
    fr.resolution_description = r.resolution_description ∧
    fr.incident_zip = r.incident_zip ∧
    Except.ok fr.latitude = coerceCoord r.latitude ∧
    Except.ok fr.longitude = coerceCoord r.longitude ∧
    fr.agency_id = (ensure_dimensions r.agency db.agency c.agency).1 ∧
    fr.complaint_type_id
      = (ensure_dimensions r.complaint_type db.complaint_type c.complaint_type).1 ∧
    fr.descriptor_id
      = (ensure_dimensions r.descriptor db.descriptor c.descriptor).1 ∧
    fr.borough_id = (ensure_dimensions r.borough db.borough c.borough).1 := by
  unfold resolveRecord at h
  cases hlat : coerceCoord r.latitude with
  | error e => rw [hlat] at h; simp at h
  | ok lat =>
    rw [hlat] at h
    cases hlon : coerceCoord r.longitude with
    | error e => rw [hlon] at h; simp at h
    | ok lon =>
      rw [hlon] at h
      simp only [Except.ok.injEq, Prod.mk.injEq] at h
      obtain ⟨h1, h2, h3⟩ := h
      subst h1 h2 h3
      exact ⟨rfl, rfl, rfl, rfl, rfl, rfl, rfl, rfl, rfl, rfl, rfl, rfl⟩

/-- Replacement map that touches no element of a key-free list. -/
theorem map_replace_id (fr : FactRow) (l : List FactRow)
    (hl : ∀ x ∈ l, ¬ x.unique_key = fr.unique_key) :
    l.map (fun x => if x.unique_key = fr.unique_key then fr else x) = l := by
  induction l with
  | nil => rfl
  | cons b bs ih =>
    simp only [List.map_cons, if_neg (hl b (by simp))]
    rw [ih (fun x hx => hl x (by simp [hx]))]

/-- Filtering the conflict-update branch of the upsert down to the key
leaves exactly the fresh row, provided keys were unique. -/
theorem filter_map_replace (facts : List FactRow) (fr : FactRow)
    (h : (facts.map (fun x => x.unique_key)).Nodup)
    (hmem : facts.any (fun x => x.unique_key = fr.unique_key) = true) :
    (facts.map (fun x => if x.unique_key = fr.unique_key then fr else x)).filter
      (fun x => x.unique_key = fr.unique_key) = [fr] := by
  induction facts with
  | nil => simp at hmem
  | cons a as ih =>
    simp only [List.map_cons, List.nodup_cons] at h
    obtain ⟨hna, hnd⟩ := h
    by_cases hak : a.unique_key = fr.unique_key
    · have hrest : ∀ x ∈ as, ¬ x.unique_key = fr.unique_key := by
        intro x hx hxk
        exact hna (List.mem_map.mpr ⟨x, hx, by rw [hxk, ← hak]⟩)
      rw [List.map_cons, if_pos hak, map_replace_id fr as hrest]
      rw [List.filter_cons_of_pos (by simp)]
      rw [List.filter_eq_nil_iff.mpr (by intro x hx; simpa using hrest x hx)]
    · have hmem' : as.any (fun x => x.unique_key = fr.unique_key) = true := by
        simpa [List.any_cons, hak] using hmem
      rw [List.map_cons, if_neg hak,
        List.filter_cons_of_neg (by simpa using hak)]
      exact ih hnd hmem'

/-- The upsert keeps exactly one row for the written key. -/
theorem upsertFact_filter (facts : List FactRow) (fr : FactRow)
    (h : (facts.map (fun x => x.unique_key)).Nodup) :
    (upsertFact facts fr).filter (fun x => x.unique_key = fr.unique_key) = [fr] := by
  unfold upsertFact
  cases hany : facts.any (fun x => x.unique_key = fr.unique_key) with
  | false =>
    simp only [Bool.false_eq_true, if_false]
    rw [List.filter_append]
    rw [List.filter_eq_nil_iff.mpr (by
      intro a ha
      simpa using List.any_eq_false.mp hany a ha)]
    simp
  | true =>
    simp only [if_true]
    exact filter_map_replace facts fr h hany

/-- The upsert preserves uniqueness of the natural key across the fact
table. -/
theorem upsertFact_nodup (facts : List FactRow) (fr : FactRow)
    (h : (facts.map (fun x => x.unique_key)).Nodup) :
    ((upsertFact facts fr).map (fun x => x.unique_key)).Nodup := by
  unfold upsertFact
  cases hany : facts.any (fun x => x.unique_key = fr.unique_key) with
  | false =>
    simp only [Bool.false_eq_true, if_false]
    rw [List.map_append, List.nodup_append]
    refine ⟨h, List.nodup_singleton _, ?_⟩
    intro a ha hb
    simp only [List.map_cons, List.map_nil, List.mem_singleton] at hb
    subst hb
    obtain ⟨x, hx, hxk⟩ := List.mem_map.mp ha
    exact absurd hxk (by simpa using List.any_eq_false.mp hany x hx)
  | true =>
    simp only [if_true]
    have hkeys : (facts.map (fun x => if x.unique_key = fr.unique_key then fr
        else x)).map (fun x => x.unique_key) = facts.map (fun x => x.unique_key) := by
      rw [List.map_map]
      refine List.map_congr_left (fun x _ => ?_)
      by_cases hxk : x.unique_key = fr.unique_key
      · simp [Function.comp, hxk]
      · simp [Function.comp, hxk]
    rw [hkeys]
    exact h

/-- Inversion of a successful `upsert_service_request` on a record with
a usable key: the store's fact table is the upsert of the resolved row
into the previous fact table. -/
theorem upsert_eq_of_key (db : DB) (c : Caches) (row : Rec) (k : Int)
    (hk : recKey row = some k) :
    upsert_service_request db c row =
      match resolveRecord db c row k with
      | .error e => .error e
      | .ok (fr, db', c') =>
        .ok ({ db' with facts := upsertFact db'.facts fr }, c') := by
  unfold upsert_service_request
  rw [hk]

theorem upsert_ok_inversion (db : DB) (c : Caches) (r : Rec) (k : Int)
    (db2 : DB) (c2 : Caches)
    (hk : recKey r = some k)
    (h : upsert_service_request db c r = .ok (db2, c2)) :
    ∃ fr db' c', resolveRecord db c r k = .ok (fr, db', c') ∧
      db2.facts = upsertFact db.facts fr := by
  rw [upsert_eq_of_key db c r k hk] at h
  cases hres : resolveRecord db c r k with
  | error e => rw [hres] at h; simp at h
  | ok p =>
    obtain ⟨fr, db', c'⟩ := p
    rw [hres] at h
    simp only [Except.ok.injEq, Prod.mk.injEq] at h
    refine ⟨fr, db', c', rfl, ?_⟩
    rw [← h.1]
    have hfacts := (resolveRecord_spec db c r k fr db' c' hres).1
    simpa using congrArg (fun l => upsertFact l fr) hfacts

/-- C1: upserting a record for key `k` and then a second record for the
same key leaves exactly one stored row for `k` (keys stay unique, no
duplicate is created), and that row is precisely the resolution of the
second record — latest timestamps, resolution note, zip, coordinates,
and the four dimension references. -/
theorem upsert_idempotent_latest (db db1 db2 : DB) (c c1 c2 : Caches)
    (r1 r2 : Rec) (k : Int)
    (hnd : (db.facts.map (fun x => x.unique_key)).Nodup)
    (hk1 : recKey r1 = some k) (hk2 : recKey r2 = some k)
    (h1 : upsert_service_request db c r1 = .ok (db1, c1))
    (h2 : upsert_service_request db1 c1 r2 = .ok (db2, c2)) :
    ∃ (fr : FactRow) (db' : DB) (c' : Caches),
      resolveRecord db1 c1 r2 k = .ok (fr, db', c') ∧
      db2.facts.filter (fun x => x.unique_key = k) = [fr] ∧
      (db2.facts.map (fun x => x.unique_key)).Nodup ∧
      fr.unique_key = k ∧
      fr.created_date = parse_iso r2.created_date ∧
      fr.closed_date = parse_iso r2.closed_date ∧
      fr.resolution_description = r2.resolution_description ∧
      fr.incident_zip = r2.incident_zip ∧
      Except.ok fr.latitude = coerceCoord r2.latitude ∧
      Except.ok fr.longitude = coerceCoord r2.longitude ∧
      fr.agency_id = (ensure_dimensions r2.agency db1.agency c1.agency).1 ∧
      fr.complaint_type_id
        = (ensure_dimensions r2.complaint_type db1.complaint_type c1.complaint_type).1 ∧
      fr.descriptor_id
        = (ensure_dimensions r2.descriptor db1.descriptor c1.descriptor).1 ∧
      fr.borough_id = (ensure_dimensions r2.borough db1.borough c1.borough).1 := by
  obtain ⟨fr1, dbA, cA, hres1, hfacts1⟩ := upsert_ok_inversion db c r1 k db1 c1 hk1 h1
  obtain ⟨fr2, dbB, cB, hres2, hfacts2⟩ := upsert_ok_inversion db1 c1 r2 k db2 c2 hk2 h2
  obtain ⟨_, hkey2, hcr, hcl, hrd, hzip, hlat, hlon, hag, hct, hde, hbo⟩ :=
    resolveRecord_spec db1 c1 r2 k fr2 dbB cB hres2
  have hnd1 : (db1.facts.map (fun x => x.unique_key)).Nodup := by
    rw [hfacts1]; exact upsertFact_nodup db.facts fr1 hnd
  have hnd2 : (db2.facts.map (fun x => x.unique_key)).Nodup := by
    rw [hfacts2]; exact upsertFact_nodup db1.facts fr2 hnd1
  have hfilter : db2.facts.filter (fun x => x.unique_key = k) = [fr2] := by
    rw [hfacts2, ← hkey2]
    exact upsertFact_filter db1.facts fr2 hnd1
  exact ⟨fr2, dbB, cB, hres2, hfilter, hnd2, hkey2, hcr, hcl, hrd, hzip,
    hlat, hlon, hag, hct, hde, hbo⟩

/-- First sighting of key 42 (C1 witness data). -/
def sampleRec1 : Rec :=
  { unique_key := some "42", created_date := some "2023-01-01T12:34:56",
    resolution_description := some "open", incident_zip := some "10001",
    latitude := some "40.7", longitude := some "-73.9",
    agency := some "NYPD", complaint_type := some "Noise",
    descriptor := some "Loud", borough := some "QUEENS" }

/-- Second sighting of key 42 with every mutable field changed. -/
def sampleRec2 : Rec :=
  { unique_key := some "42", created_date := some "2023-01-01T12:34:56.789",
    closed_date := some "2023-01-02T00:00:00",
    resolution_description := some "closed", incident_zip := some "10002",
    latitude := some "40.8", longitude := some "-73.8",
    agency := some "DOT", complaint_type := some "Noise",
    descriptor := some "Very loud", borough := some "QUEENS" }

/-- State after ingesting `sampleRec1` into the empty store. -/
def sampleStep1 : DB × Caches :=
  ((upsert_service_request {} {} sampleRec1).toOption).getD ({}, {})

/-- State after re-ingesting key 42 via `sampleRec2`. -/
def sampleStep2 : DB × Caches :=
  ((upsert_service_request sampleStep1.1 sampleStep1.2 sampleRec2).toOption).getD ({}, {})

/-- C1 witness: re-ingesting key 42 with changed values on the empty
store leaves exactly one row, carrying the second record's values. -/
theorem upsert_idempotent_latest_witness :
    ∃ (fr : FactRow) (db' : DB) (c' : Caches),
      resolveRecord sampleStep1.1 sampleStep1.2 sampleRec2 42 = .ok (fr, db', c') ∧
      sampleStep2.1.facts.filter (fun x => x.unique_key = 42) = [fr] ∧
      (sampleStep2.1.facts.map (fun x => x.unique_key)).Nodup ∧
      fr.unique_key = 42 ∧
      fr.created_date = parse_iso sampleRec2.created_date ∧
      fr.closed_date = parse_iso sampleRec2.closed_date ∧
      fr.resolution_description = sampleRec2.resolution_description ∧
      fr.incident_zip = sampleRec2.incident_zip ∧
      Except.ok fr.latitude = coerceCoord sampleRec2.latitude ∧
      Except.ok fr.longitude = coerceCoord sampleRec2.longitude ∧
      fr.agency_id
        = (ensure_dimensions sampleRec2.agency sampleStep1.1.agency sampleStep1.2.agency).1 ∧
      fr.complaint_type_id
        = (ensure_dimensions sampleRec2.complaint_type sampleStep1.1.complaint_type
            sampleStep1.2.complaint_type).1 ∧
      fr.descriptor_id
        = (ensure_dimensions sampleRec2.descriptor sampleStep1.1.descriptor
            sampleStep1.2.descriptor).1 ∧
      fr.borough_id
        = (ensure_dimensions sampleRec2.borough sampleStep1.1.borough
            sampleStep1.2.borough).1 :=
  upsert_idempotent_latest {} sampleStep1.1 sampleStep2.1 {} sampleStep1.2 sampleStep2.2
    sampleRec1 sampleRec2 42 (by simp) (by rfl) (by rfl) (by rfl) (by rfl)

/-! ## Orchestrator loop: termination (C8) and reported count (C10) -/

/-- One unfolding of the page loop. -/
theorem runLoop_succ (pages : Nat → List Rec) (total ps fuel : Nat) (st : LoopState) :
    runLoop pages total ps (fuel + 1) st =
      if pages st.offset = [] then some (.ok (st.fetched, st.db))
      else
        match processPage st.db st.caches (pages st.offset) with
        | .error e => some (.error e)
        | .ok dc =>
          if total ≠ 0 ∧ st.fetched + (pages st.offset).length ≥ total then
            some (.ok (st.fetched + (pages st.offset).length, dc.1))
          else runLoop pages total ps fuel
            ⟨dc.1, dc.2, st.offset + ps, st.fetched + (pages st.offset).length⟩ := rfl

/-- If the page at the `n`-th offset from the current state is empty,
the loop exits within `n + 1` iterations (possibly earlier through the
reached-total break or an aborting page). -/
theorem runLoop_empty_terminates (pages : Nat → List Rec) (total ps : Nat) :
    ∀ (n : Nat) (st : LoopState), pages (st.offset + n * ps) = [] →
      ∃ r, runLoop pages total ps (n + 1) st = some r := by
  intro n
  induction n with
  | zero =>
    intro st h
    simp only [Nat.zero_mul, Nat.add_zero] at h
    exact ⟨.ok (st.fetched, st.db), by rw [runLoop_succ, if_pos h]⟩
  | succ n ih =>
    intro st h
    by_cases hd : pages st.offset = []
    · exact ⟨.ok (st.fetched, st.db), by rw [runLoop_succ, if_pos hd]⟩
    · cases hp : processPage st.db st.caches (pages st.offset) with
      | error e =>
        refine ⟨.error e, ?_⟩
        rw [runLoop_succ, if_neg hd]
        simp only [hp]
      | ok dc =>
        by_cases hbrk : total ≠ 0 ∧ st.fetched + (pages st.offset).length ≥ total
        · refine ⟨.ok (st.fetched + (pages st.offset).length, dc.1), ?_⟩
          rw [runLoop_succ, if_neg hd]
          simp only [hp, if_pos hbrk]
        · have heq : st.offset + ps + n * ps = st.offset + (n + 1) * ps := by ring
          have h' : pages (st.offset + ps + n * ps) = [] := by rw [heq]; exact h
          obtain ⟨r, hr⟩ :=
            ih ⟨dc.1, dc.2, st.offset + ps, st.fetched + (pages st.offset).length⟩ h'
          refine ⟨r, ?_⟩
          rw [runLoop_succ, if_neg hd]
          simp only [hp, if_neg hbrk]
          exact hr

/-- With a nonzero total, the loop exits once the fetched counter can
reach the total: each non-empty page adds at least one record, so
`total ≤ fetched + fuel` suffices for `fuel + 1` iterations. -/
theorem runLoop_total_terminates (pages : Nat → List Rec) (total ps : Nat)
    (htot : 0 < total) :
    ∀ (fuel : Nat) (st : LoopState), total ≤ st.fetched + fuel →
      ∃ r, runLoop pages total ps (fuel + 1) st = some r := by
  intro fuel
  induction fuel with
  | zero =>
    intro st hle
    by_cases hd : pages st.offset = []
    · exact ⟨.ok (st.fetched, st.db), by rw [runLoop_succ, if_pos hd]⟩
    · cases hp : processPage st.db st.caches (pages st.offset) with
      | error e =>
        refine ⟨.error e, ?_⟩
        rw [runLoop_succ, if_neg hd]
        simp only [hp]
      | ok dc =>
        have hlen : 1 ≤ (pages st.offset).length :=
          List.length_pos.mpr hd
        have hbrk : total ≠ 0 ∧ st.fetched + (pages st.offset).length ≥ total :=
          ⟨by omega, by omega⟩
        refine ⟨.ok (st.fetched + (pages st.offset).length, dc.1), ?_⟩
        rw [runLoop_succ, if_neg hd]
        simp only [hp, if_pos hbrk]
  | succ fuel ih =>
    intro st hle
    by_cases hd : pages st.offset = []
    · exact ⟨.ok (st.fetched, st.db), by rw [runLoop_succ, if_pos hd]⟩
    · cases hp : processPage st.db st.caches (pages st.offset) with
      | error e =>
        refine ⟨.error e, ?_⟩
        rw [runLoop_succ, if_neg hd]
        simp only [hp]
      | ok dc =>
        have hlen : 1 ≤ (pages st.offset).length :=
          List.length_pos.mpr hd
        by_cases hbrk : total ≠ 0 ∧ st.fetched + (pages st.offset).length ≥ total
        · refine ⟨.ok (st.fetched + (pages st.offset).length, dc.1), ?_⟩
          rw [runLoop_succ, if_neg hd]
          simp only [hp, if_pos hbrk]
        · obtain ⟨r, hr⟩ :=
            ih ⟨dc.1, dc.2, st.offset + ps, st.fetched + (pages st.offset).length⟩
              (by simp only []; omega)
          refine ⟨r, ?_⟩
          rw [runLoop_succ, if_neg hd]
          simp only [hp, if_neg hbrk]
          exact hr

/-- C8: the page loop terminates for every fetch behaviour that
eventually yields an empty page at one of the visited offsets (which
advance by the page size from 0), and, when a nonzero total estimate is
known, even without any empty page — the cumulative count reaches the
total and the early break fires. -/
theorem run_etl_loop_terminates (pages : Nat → List Rec) (total ps : Nat) (db : DB)
    (h : (∃ n, pages (n * ps) = []) ∨ 0 < total) :
    ∃ fuel r, runLoop pages total ps fuel (initState db) = some r := by
  rcases h with ⟨n, hn⟩ | htot
  · obtain ⟨r, hr⟩ := runLoop_empty_terminates pages total ps n (initState db)
      (by simpa [initState] using hn)
    exact ⟨n + 1, r, hr⟩
  · obtain ⟨r, hr⟩ := runLoop_total_terminates pages total ps htot total (initState db)
      (by simp [initState])
    exact ⟨total + 1, r, hr⟩

/-- C8 witness: a source that immediately returns an empty page. -/
theorem run_etl_loop_terminates_witness :
    ∃ fuel r, runLoop (fun _ => []) 0 1000 fuel (initState {}) = some r :=
  run_etl_loop_terminates (fun _ => []) 0 1000 {} (Or.inl ⟨0, rfl⟩)

/-- A two-record page whose second record has a non-coercible key. -/
def skipPages : Nat → List Rec :=
  fun o => if o = 0 then
      [{ unique_key := some "1", agency := some "NYPD" },
       { unique_key := some "abc" }]
    else []

/-- The store produced by running the loop over `skipPages`. -/
def skipDb : DB :=
  match runLoop skipPages 0 1000 2 (initState {}) with
  | some (.ok (_, db)) => db
  | _ => {}

/-- C10: the processed-record count reported when the loop exits
successfully is the initial counter plus the total length of the pages
consumed — every record returned by the API is counted, including ones
skipped for a bad natural key — and it can exceed the number of fact
rows actually upserted: the concrete run fetches 2 records, stores 1,
and reports 2. -/
theorem run_etl_count_includes_skipped :
    (∀ (pages : Nat → List Rec) (total ps fuel : Nat) (st : LoopState)
        (n : Nat) (db : DB),
      runLoop pages total ps fuel st = some (.ok (n, db)) →
      ∃ k, n = st.fetched +
        ∑ i in Finset.range k, (pages (st.offset + i * ps)).length) ∧
    (runLoop skipPages 0 1000 2 (initState {}) = some (.ok (2, skipDb)) ∧
      skipDb.facts.length = 1) := by
  constructor
  · intro pages total ps fuel
    induction fuel with
    | zero => intro st n db h; simp [runLoop] at h
    | succ fuel ih =>
      intro st n db h
      rw [runLoop_succ] at h
      by_cases hd : pages st.offset = []
      · rw [if_pos hd] at h
        simp only [Option.some.injEq, Except.ok.injEq, Prod.mk.injEq] at h
        exact ⟨0, by simp [← h.1]⟩
      · rw [if_neg hd] at h
        cases hp : processPage st.db st.caches (pages st.offset) with
        | error e =>
          simp only [hp] at h
          simp at h
        | ok dc =>
          by_cases hbrk : total ≠ 0 ∧ st.fetched + (pages st.offset).length ≥ total
          · simp only [hp, if_pos hbrk, Option.some.injEq, Except.ok.injEq,
              Prod.mk.injEq] at h
            refine ⟨1, ?_⟩
            rw [← h.1]
            simp
          · simp only [hp, if_neg hbrk] at h
            obtain ⟨k, hk⟩ :=
              ih ⟨dc.1, dc.2, st.offset + ps, st.fetched + (pages st.offset).length⟩ n db h
            refine ⟨k + 1, ?_⟩
            rw [Finset.sum_range_succ']
            have hsum : ∑ i in Finset.range k, (pages (st.offset + (i + 1) * ps)).length
                = ∑ i in Finset.range k, (pages (st.offset + ps + i * ps)).length :=
              Finset.sum_congr rfl (fun i _ => by
                rw [show st.offset + (i + 1) * ps = st.offset + ps + i * ps from by ring])
            rw [hsum]
            simp only [] at hk
            simp only [Nat.zero_mul, Nat.add_zero]
            omega
  · exact ⟨rfl, rfl⟩

/-- C10 witness: the general count law applied to the concrete run that
skips one of its two records. -/
theorem run_etl_count_includes_skipped_witness :
    ∃ k, 2 = (initState ({} : DB)).fetched +
      ∑ i in Finset.range k, (skipPages ((initState ({} : DB)).offset + i * 1000)).length :=
  run_etl_count_includes_skipped.1 skipPages 0 1000 2 (initState {}) 2 skipDb (by rfl)

end Etl
